import Mathlib

/-!
Verification of the NMEA/AIS sentence layer of `pyais` (`src/pyais/messages.py`).

Bytes are modelled as `Nat` (each value below 256 in practice), byte strings as
`List Nat`, and the `bitarray` bit stream as `List Bool`.  Python exceptions are
modelled by explicit error results: `ValueError` raised by the constructor maps
to `framing` / `numeric` / `badChecksumField` / `checksumMismatch` according to
the raising site, while the uncaught `IndexError` (empty first comma field),
`UnicodeDecodeError` (non-ASCII talker bytes) and `TypeError`
(`reduce(xor, b'')` on an empty checksum region) keep their own constructors.

`pyais.util.decode_into_bit_array` and `pyais.util.get_int` are imported by
`messages.py` but their source is not part of this repository; they are
modelled from the spec (sections 4.3 and 4.4), as marked on their definitions.
-/

/-- Byte values of a string of ASCII characters (test-input helper). -/
def strBytes (s : String) : List Nat :=
  s.toList.map Char.toNat

/-- Embedding of Python `raw.split(b",")` (and, with `sep = 42`, the splitting
on `b"*"` used by `compute_checksum`): split a byte list at every occurrence of
`sep`, keeping empty chunks, so the result always has `count sep + 1` chunks. -/
def splitByte (sep : Nat) : List Nat → List (List Nat)
  | [] => [[]]
  | b :: rest =>
    if b = sep then
      [] :: splitByte sep rest
    else
      match splitByte sep rest with
      | [] => [[b]]
      | chunk :: chunks => (b :: chunk) :: chunks

/-- Join byte fields with the comma byte 44: the inverse of `splitByte 44` on
comma-free fields.  Used to talk about a raw sentence through its fields. -/
def joinComma : List (List Nat) → List Nat
  | [] => []
  | [f] => f
  | f :: fs => f ++ 44 :: joinComma fs

/-- Embedding of Python `reduce(xor, l)`: no initial value, so the empty list
raises `TypeError`, modelled by `none`. -/
def reduceXor : List Nat → Option Nat
  | [] => none
  | b :: rest => some (rest.foldl Nat.xor b)

/-- Embedding of `NMEAMessage.compute_checksum` (messages.py lines 123-131):
`msg[1:].split(b'*', 1)[0]` is the part of `msg` after the first byte and
before the first `'*'` (byte 42), folded with `xor` by `reduce`. -/
def compute_checksum (msg : List Nat) : Option Nat :=
  reduceXor ((msg.drop 1).takeWhile (fun b => b ≠ 42))

/-- Value of an ASCII decimal digit byte. -/
def digitVal (b : Nat) : Option Nat :=
  if 48 ≤ b ∧ b ≤ 57 then some (b - 48) else none

/-- Value of an ASCII hexadecimal digit byte (`0-9`, `A-F`, `a-f`). -/
def hexVal (b : Nat) : Option Nat :=
  if 48 ≤ b ∧ b ≤ 57 then some (b - 48)
  else if 65 ≤ b ∧ b ≤ 70 then some (b - 55)
  else if 97 ≤ b ∧ b ≤ 102 then some (b - 87)
  else none

/-- Embedding of Python `int(bs)` on the digit strings that occur in NMEA
fields: a non-empty all-digit byte string parses to its base-10 value, anything
else raises `ValueError` (`none`).  (Python's `int` additionally tolerates
surrounding whitespace, a sign and underscores; those inputs do not occur in
NMEA fragment-count/index fields and are not modelled.) -/
def parseNatDigits (bs : List Nat) : Option Nat :=
  match bs with
  | [] => none
  | _ :: _ => bs.foldl (fun acc b => acc.bind (fun n => (digitVal b).map (fun d => 10 * n + d))) (some 0)

/-- Embedding of Python `int(bs, 16)` on hex strings: a non-empty all-hex byte
string parses to its base-16 value, anything else raises `ValueError`
(`none`).  (Whitespace/sign/underscore tolerance of Python's `int` is not
modelled, as above.) -/
def parseNatHex (bs : List Nat) : Option Nat :=
  match bs with
  | [] => none
  | _ :: _ => bs.foldl (fun acc b => acc.bind (fun n => (hexVal b).map (fun d => 16 * n + d))) (some 0)

/-- Embedding of Python `bytes.decode('ascii')`: succeeds (returning the same
code points) exactly when every byte is below 128, otherwise raises
`UnicodeDecodeError` (`none`). -/
def decodeAscii (bs : List Nat) : Option (List Nat) :=
  if bs.all (fun b => b < 128) then some bs else none

/-- Modelled from the spec: the six-bit ASCII armoring table of
`pyais.util.decode_into_bit_array` (imported by messages.py but not part of
this repository).  Section 4.3: for each byte `b` (valid range 0x30-0x77,
excluding 0x60-0x67) let `v = b - 0x30`; if `v > 40` then `v -= 8`; the byte
contributes the low 6 bits of `v`.  Bytes outside the valid range are
invalid. -/
def sixBitVal (b : Nat) : Option Nat :=
  if 48 ≤ b ∧ b ≤ 119 ∧ ¬(96 ≤ b ∧ b ≤ 103) then
    some (if b - 48 > 40 then b - 48 - 8 else b - 48)
  else none

/-- Low 6 bits of `v`, most-significant bit first (spec section 4.3). -/
def natToBits6 (v : Nat) : List Bool :=
  [v.testBit 5, v.testBit 4, v.testBit 3, v.testBit 2, v.testBit 1, v.testBit 0]

/-- Modelled from the spec: `pyais.util.decode_into_bit_array` (section 4.3),
the six-bit unarmorer.  Emits 6 bits per payload byte, MSB first, in payload
order; fails if any byte is outside the valid armoring range. -/
def decode_into_bit_array : List Nat → Option (List Bool)
  | [] => some []
  | b :: rest =>
    match sixBitVal b, decode_into_bit_array rest with
    | some v, some bits => some (natToBits6 v ++ bits)
    | _, _ => none

/-- Big-endian value of a bit list (first bit most significant). -/
def bitsToNat (bits : List Bool) : Nat :=
  bits.foldl (fun acc b => 2 * acc + (if b then 1 else 0)) 0

/-- Modelled from the spec: `pyais.util.get_int` (section 4.4), the bit-field
reader.  Big-endian unsigned read of `length` bits starting at `start`; a
request past the end of the stream fails with `RangeError` (`none`), never
silently zero-pads. -/
def get_int (bits : List Bool) (start length : Nat) : Option Nat :=
  if start + length ≤ bits.length then
    some (bitsToNat ((bits.drop start).take length))
  else none

/-- The fields of a fully constructed `NMEAMessage` (the `__slots__` of
messages.py, with `raw`/`seq_id`/`channel`/`data` as byte lists, `talker` and
`msg_type` as their ASCII-decoded code points, and `bit_array` as a bit
list). -/
structure NMEAMessage where
  raw : List Nat
  talker : List Nat
  msg_type : List Nat
  count : Nat
  index : Nat
  seq_id : List Nat
  channel : List Nat
  data : List Nat
  checksum : Nat
  bit_array : List Bool
  ais_id : Nat
deriving Repr, DecidableEq

instance : Inhabited NMEAMessage :=
  ⟨⟨[], [], [], 0, 0, [], [], [], 0, [], 0⟩⟩

/-- The ways `NMEAMessage.__init__` can fail, by raising site. -/
inductive NMEAError where
  /-- Uncaught `IndexError` from `values[0][0]` when the first comma field is empty. -/
  | indexError
  /-- `ValueError` from the 7-field check (messages.py lines 42-44). -/
  | framing
  /-- Uncaught `UnicodeDecodeError` from `.decode('ascii')` on a non-ASCII byte. -/
  | unicodeError
  /-- `ValueError` from `int(count)` / `int(index)` on a non-numeric field. -/
  | numeric
  /-- `ValueError` from `int(checksum[2:], 16)` on a non-hex tail. -/
  | badChecksumField
  /-- Uncaught `TypeError` from `reduce(xor, b'')` when the checksum region is empty. -/
  | typeError
  /-- `ValueError` "Invalid Checksum" (messages.py lines 71-73). -/
  | checksumMismatch
  /-- Failure of the (spec-modelled) unarmorer on an out-of-range payload byte. -/
  | badPayload
  /-- Failure of the (spec-modelled) bit-field read of the 6 type bits. -/
  | rangeError
deriving Repr, DecidableEq

/-- Result of constructing an `NMEAMessage` from raw bytes: a fully parsed
frame, the early "ignored" return for non-encapsulated sentences (the
partially initialized object keeps only `raw`), or a raised exception. -/
inductive ParseResult where
  | ok (m : NMEAMessage)
  | ignored (raw : List Nat)
  | error (e : NMEAError)
deriving Repr, DecidableEq

/-- Steps of `NMEAMessage.__init__` after the sentinel and 7-field checks
(messages.py lines 46-77), in source order: talker and message type from the
head field, fragment count/index as base-10 integers, the declared checksum as
`int(checksum[2:], 16)`, the `is_valid` comparison against
`compute_checksum(raw)`, then unarmoring and the 6-bit type read. -/
def parseFields (raw : List Nat) (values : List (List Nat)) : ParseResult :=
  let head := values.getD 0 []
  let countF := values.getD 1 []
  let indexF := values.getD 2 []
  let seq_id := values.getD 3 []
  let channel := values.getD 4 []
  let data := values.getD 5 []
  let checksumF := values.getD 6 []
  match decodeAscii ((head.drop 1).take 2) with
  | none => .error .unicodeError
  | some talker =>
    match decodeAscii (head.drop 3) with
    | none => .error .unicodeError
    | some msg_type =>
      match parseNatDigits countF with
      | none => .error .numeric
      | some count =>
        match parseNatDigits indexF with
        | none => .error .numeric
        | some index =>
          match parseNatHex (checksumF.drop 2) with
          | none => .error .badChecksumField
          | some checksum =>
            match compute_checksum raw with
            | none => .error .typeError
            | some computed =>
              if checksum ≠ computed then .error .checksumMismatch
              else
                match decode_into_bit_array data with
                | none => .error .badPayload
                | some bit_array =>
                  match get_int bit_array 0 6 with
                  | none => .error .rangeError
                  | some ais_id =>
                    .ok ⟨raw, talker, msg_type, count, index, seq_id,
                         channel, data, checksum, bit_array, ais_id⟩

/-- Embedding of `NMEAMessage.__init__` (messages.py lines 28-77): split the
raw bytes on commas, test `values[0][0]` against the `!` sentinel (0x21 = 33)
— an empty first chunk raises `IndexError` here — return the ignored partial
object if the sentinel is absent, require exactly 7 fields, then parse them. -/
def NMEAMessage.parse (raw : List Nat) : ParseResult :=
  let values := splitByte 44 raw
  match (values.headD []).head? with
  | none => .error .indexError
  | some b0 =>
    if b0 = 33 then
      if values.length = 7 then parseFields raw values
      else .error .framing
    else .ignored raw

/-- Embedding of `NMEAMessage.assemble_from_iterable` (messages.py lines
102-121).  The Python loop concatenates `raw`, `data` and `bit_array` over all
messages, then assigns the three concatenations onto `messages[0]` in place
and returns `messages[0]`.  The mutation is made explicit by also returning
the post-call state of the input sequence; the empty sequence raises
`IndexError` at `messages[0]` (`none`). -/
def assemble_from_iterable (messages : List NMEAMessage) :
    Option (NMEAMessage × List NMEAMessage) :=
  match messages with
  | [] => none
  | m0 :: rest =>
    let raw := (messages.map (fun m => m.raw)).flatten
    let data := (messages.map (fun m => m.data)).flatten
    let bit_array := (messages.map (fun m => m.bit_array)).flatten
    let m0' := { m0 with raw := raw, data := data, bit_array := bit_array }
    some (m0', m0' :: rest)

/-- The state of the input sequence after `assemble_from_iterable` returns
(unchanged when the call raises). -/
def assembledInputs (messages : List NMEAMessage) : List NMEAMessage :=
  match assemble_from_iterable messages with
  | some (_, after) => after
  | none => messages

/-- Embedding of `AISMessage` (messages.py lines 153-167): the wrapped NMEA
message and the `content` mapping returned by the external
`pyais.decode.decode` registry (out of scope per spec section 1), which
`__getitem__` guards against being `None`.  The dictionary is an association
list with the value type left abstract. -/
structure AISMessage (α : Type) where
  nmea : NMEAMessage
  content : Option (List (String × α))

/-- Python `dict.get(item, None)` over an association list. -/
def dictGet {α : Type} (d : List (String × α)) (k : String) : Option α :=
  (d.find? (fun p => p.1 == k)).map (fun p => p.2)

/-- Embedding of `AISMessage.__getitem__` (messages.py lines 164-167):
`None` when `content` is `None`, else `content.get(item, None)`. -/
def AISMessage.getItem {α : Type} (m : AISMessage α) (k : String) : Option α :=
  match m.content with
  | none => none
  | some c => dictGet c k

/-- Whether a parse produced a fully constructed frame. -/
def ParseResult.isOk : ParseResult → Bool
  | .ok _ => true
  | _ => false

/-- The declared checksum of a successfully parsed frame. -/
def ParseResult.checksumOf : ParseResult → Option Nat
  | .ok m => some m.checksum
  | _ => none

/-- The frame of a successful parse (default frame otherwise); lets concrete
parsed frames be named in closed statements. -/
def ParseResult.okFrame : ParseResult → NMEAMessage
  | .ok m => m
  | _ => default

/-! ### Helper lemmas about the embedded operations -/

/-- Unfolding of the `^^^` notation for `Nat.xor`. -/
theorem xor_op (a b : Nat) : Nat.xor a b = a ^^^ b := rfl

/-- XOR-folding with an initial accumulator splits off the accumulator. -/
theorem foldl_xor_init (l : List Nat) : ∀ a : Nat, l.foldl Nat.xor a = a ^^^ l.foldl Nat.xor 0 := by
  induction l with
  | nil => intro a; simp
  | cons b rest ih =>
    intro a
    simp only [List.foldl_cons, xor_op, Nat.zero_xor]
    rw [ih, ih b, Nat.xor_assoc]

/-- Python `reduce(xor, l)` on a non-empty list is the zero-initialised XOR fold. -/
theorem reduceXor_eq_foldl (l : List Nat) (h : l ≠ []) :
    reduceXor l = some (l.foldl Nat.xor 0) := by
  match l with
  | [] => exact absurd rfl h
  | b :: rest =>
    simp only [reduceXor, List.foldl_cons, xor_op, Nat.zero_xor]

/-- XOR fold distributes over append. -/
theorem foldl_xor_append (l1 l2 : List Nat) :
    (l1 ++ l2).foldl Nat.xor 0 = l1.foldl Nat.xor 0 ^^^ l2.foldl Nat.xor 0 := by
  rw [List.foldl_append, foldl_xor_init]

/-- Replacing one element of a list changes its XOR fold by the XOR of the old
and new bytes. -/
theorem foldl_xor_set (l : List Nat) : ∀ (i : Nat) (b' : Nat), i < l.length →
    (l.set i b').foldl Nat.xor 0 = l.foldl Nat.xor 0 ^^^ l.getD i 0 ^^^ b' := by
  induction l with
  | nil => intro i b' h; simp at h
  | cons x xs ih =>
    intro i b' h
    match i with
    | 0 =>
      simp only [List.set_cons_zero, List.foldl_cons, List.getD_cons_zero, xor_op, Nat.zero_xor]
      rw [foldl_xor_init xs b', foldl_xor_init xs x,
        Nat.xor_comm x (xs.foldl Nat.xor 0), Nat.xor_assoc (xs.foldl Nat.xor 0) x x,
        Nat.xor_self, Nat.xor_zero, Nat.xor_comm]
    | i + 1 =>
      simp only [List.set_cons_succ, List.foldl_cons, List.getD_cons_succ, xor_op, Nat.zero_xor]
      rw [foldl_xor_init (xs.set i b') x, foldl_xor_init xs x,
        ih i b' (by simpa using h)]
      simp only [Nat.xor_assoc]

/-- `takeWhile` walks through a whole prefix whose elements all satisfy the
predicate. -/
theorem takeWhile_append_all (p : Nat → Bool) (l1 l2 : List Nat)
    (h : ∀ b ∈ l1, p b = true) :
    (l1 ++ l2).takeWhile p = l1 ++ l2.takeWhile p := by
  induction l1 with
  | nil => simp
  | cons x xs ih =>
    simp only [List.cons_append, List.takeWhile_cons, h x (by simp)]
    rw [ih (fun b hb => h b (by simp [hb]))]
    simp

/-- `splitByte` never returns the empty list of chunks. -/
theorem splitByte_ne_nil (sep : Nat) (l : List Nat) : splitByte sep l ≠ [] := by
  induction l with
  | nil => simp [splitByte]
  | cons b rest ih =>
    simp only [splitByte]
    by_cases hb : b = sep
    · simp [hb]
    · simp only [hb, if_false]
      match h : splitByte sep rest with
      | [] => simp
      | c :: cs => simp

/-- The first chunk of a split starts with the first byte when that byte is
not the separator. -/
theorem splitByte_headD_head (sep b : Nat) (l : List Nat) (hb : b ≠ sep) :
    ((splitByte sep (b :: l)).headD []).head? = some b := by
  simp only [splitByte, hb, if_false]
  match h : splitByte sep l with
  | [] => simp
  | c :: cs => simp

/-- A separator-free byte list splits into the single chunk it is. -/
theorem splitByte_of_not_mem (sep : Nat) (l : List Nat) (h : sep ∉ l) :
    splitByte sep l = [l] := by
  induction l with
  | nil => simp [splitByte]
  | cons b rest ih =>
    have hb : b ≠ sep := fun e => h (by simp [e])
    have hrest : sep ∉ rest := fun e => h (by simp [e])
    simp only [splitByte, hb, if_false, ih hrest]

/-- Splitting strips a leading separator-free chunk. -/
theorem splitByte_append_cons (sep : Nat) (f l : List Nat) (h : sep ∉ f) :
    splitByte sep (f ++ sep :: l) = f :: splitByte sep l := by
  induction f with
  | nil => simp [splitByte]
  | cons b fs ih =>
    have hb : b ≠ sep := fun e => h (by simp [e])
    have hfs : sep ∉ fs := fun e => h (by simp [e])
    rw [List.cons_append, splitByte, if_neg hb, ih hfs]

/-- Splitting on commas inverts `joinComma` on comma-free fields. -/
theorem splitByte_joinComma (fs : List (List Nat)) (hne : fs ≠ [])
    (hfree : ∀ f ∈ fs, 44 ∉ f) :
    splitByte 44 (joinComma fs) = fs := by
  induction fs with
  | nil => exact absurd rfl hne
  | cons f rest ih =>
    match rest with
    | [] =>
      simp only [joinComma]
      exact splitByte_of_not_mem 44 f (hfree f (by simp))
    | g :: gs =>
      have h1 : joinComma (f :: g :: gs) = f ++ 44 :: joinComma (g :: gs) := rfl
      rw [h1, splitByte_append_cons 44 f _ (hfree f (by simp)),
        ih (by simp) (fun x hx => hfree x (by simp [hx]))]

/-- Inversion of a successful `NMEAMessage.parse`: the facts established by
each step of `__init__` on the way to a fully constructed frame. -/
theorem parse_ok_spec (raw : List Nat) (m : NMEAMessage)
    (h : NMEAMessage.parse raw = .ok m) :
    m.raw = raw ∧
    ((splitByte 44 raw).headD []).head? = some 33 ∧
    (splitByte 44 raw).length = 7 ∧
    decodeAscii ((((splitByte 44 raw).getD 0 []).drop 1).take 2) = some m.talker ∧
    decodeAscii (((splitByte 44 raw).getD 0 []).drop 3) = some m.msg_type ∧
    parseNatDigits ((splitByte 44 raw).getD 1 []) = some m.count ∧
    parseNatDigits ((splitByte 44 raw).getD 2 []) = some m.index ∧
    m.seq_id = (splitByte 44 raw).getD 3 [] ∧
    m.channel = (splitByte 44 raw).getD 4 [] ∧
    m.data = (splitByte 44 raw).getD 5 [] ∧
    parseNatHex (((splitByte 44 raw).getD 6 []).drop 2) = some m.checksum ∧
    compute_checksum raw = some m.checksum ∧
    decode_into_bit_array ((splitByte 44 raw).getD 5 []) = some m.bit_array := by
  simp only [NMEAMessage.parse] at h
  split at h
  · exact absurd h (by simp)
  case _ b0 hb0 =>
    by_cases h33 : b0 = 33
    · rw [if_pos h33] at h
      by_cases hlen : (splitByte 44 raw).length = 7
      · rw [if_pos hlen] at h
        subst h33
        simp only [parseFields] at h
        split at h
        · exact absurd h (by simp)
        case _ talker htalker =>
          split at h
          · exact absurd h (by simp)
          case _ msg_type hmsg =>
            split at h
            · exact absurd h (by simp)
            case _ count hcount =>
              split at h
              · exact absurd h (by simp)
              case _ index hindex =>
                split at h
                · exact absurd h (by simp)
                case _ checksum hchecksum =>
                  split at h
                  · exact absurd h (by simp)
                  case _ computed hcomputed =>
                    split at h
                    · exact absurd h (by simp)
                    case _ hne =>
                      split at h
                      · exact absurd h (by simp)
                      case _ bit_array hbits =>
                        split at h
                        · exact absurd h (by simp)
                        case _ ais_id hais =>
                          have hm := (ParseResult.ok.injEq _ _).mp h
                          subst hm
                          rw [Decidable.not_not] at hne
                          subst hne
                          exact ⟨rfl, hb0, hlen, htalker, hmsg, hcount, hindex, rfl, rfl,
                            rfl, hchecksum, hcomputed, hbits⟩
      · rw [if_neg hlen] at h
        exact absurd h (by simp)
    · rw [if_neg h33] at h
      exact absurd h (by simp)

/-- Forward evaluation: a raw line whose first comma chunk starts with the `!`
sentinel and which splits into exactly 7 chunks is handed to `parseFields`. -/
theorem parse_eq_parseFields (raw : List Nat)
    (hhead : ((splitByte 44 raw).headD []).head? = some 33)
    (hlen : (splitByte 44 raw).length = 7) :
    NMEAMessage.parse raw = parseFields raw (splitByte 44 raw) := by
  simp only [NMEAMessage.parse, hhead, hlen]
  simp

/-- Forward evaluation of the field steps up to a failing checksum comparison:
when the head decodes, the counts parse, the declared checksum parses and the
computed checksum exists but differs, `__init__` raises the "Invalid Checksum"
`ValueError`. -/
theorem parseFields_mismatch (raw : List Nat) (values : List (List Nat))
    (t mt : List Nat) (c i d comp : Nat)
    (h1 : decodeAscii (((values.getD 0 []).drop 1).take 2) = some t)
    (h2 : decodeAscii ((values.getD 0 []).drop 3) = some mt)
    (h3 : parseNatDigits (values.getD 1 []) = some c)
    (h4 : parseNatDigits (values.getD 2 []) = some i)
    (h5 : parseNatHex ((values.getD 6 []).drop 2) = some d)
    (h6 : compute_checksum raw = some comp)
    (h7 : d ≠ comp) :
    parseFields raw values = .error .checksumMismatch := by
  simp only [parseFields, h1, h2, h3, h4, h5, h6, if_pos h7]

/-- A successfully unarmored payload contains only bytes in the armoring
range; in particular neither the comma byte 44 nor the star byte 42. -/
theorem decode_into_bit_array_mem (payload : List Nat) (bits : List Bool)
    (h : decode_into_bit_array payload = some bits) :
    ∀ b ∈ payload, 48 ≤ b ∧ b ≤ 119 := by
  induction payload generalizing bits with
  | nil => intro b hb; simp at hb
  | cons x rest ih =>
    intro b hb
    simp only [decode_into_bit_array] at h
    split at h
    case _ v vbits hx hrest =>
      rcases List.mem_cons.mp hb with hbx | hbr
      · subst hbx
        simp only [sixBitVal] at hx
        split at hx
        case _ hrange => exact ⟨hrange.1, hrange.2.1⟩
        case _ => exact absurd hx (by simp)
      · exact ih vbits hrest b hbr
    case _ => exact absurd h (by simp)

/-- Association-list lookup finds the value of a present key when the keys
are distinct (as they are in a Python dict). -/
theorem dictGet_of_mem {α : Type} (c : List (String × α)) (k : String) (v : α)
    (hnd : (c.map Prod.fst).Nodup) (hmem : (k, v) ∈ c) :
    dictGet c k = some v := by
  induction c with
  | nil => simp at hmem
  | cons p rest ih =>
    by_cases hk : p.1 = k
    · have hp : p = (k, v) := by
        rcases List.mem_cons.mp hmem with h | h
        · exact h.symm
        · exfalso
          have : k ∈ rest.map Prod.fst := List.mem_map.mpr ⟨(k, v), h, rfl⟩
          rw [← hk] at this
          exact (List.nodup_cons.mp hnd).1 this
      subst hp
      simp [dictGet, List.find?]
    · have hmem' : (k, v) ∈ rest := by
        rcases List.mem_cons.mp hmem with h | h
        · exact absurd (congrArg Prod.fst h.symm) hk
        · exact h
      have := ih (List.nodup_cons.mp hnd).2 hmem'
      simp only [dictGet, List.find?] at this ⊢
      rw [show (p.1 == k) = false from beq_false_of_ne hk]
      exact this

/-- Association-list lookup of an absent key yields `none`. -/
theorem dictGet_of_not_mem {α : Type} (c : List (String × α)) (k : String)
    (h : k ∉ c.map Prod.fst) :
    dictGet c k = none := by
  induction c with
  | nil => rfl
  | cons p rest ih =>
    have hk : p.1 ≠ k := fun e => h (by simp [e])
    have hrest : k ∉ rest.map Prod.fst := fun e => h (by simp [e])
    simp only [dictGet, List.find?]
    rw [show (p.1 == k) = false from beq_false_of_ne hk]
    exact ih hrest

/-! ### Concrete sentences used as witnesses and counterexamples -/

/-- A well-formed single-fragment sentence with a correct checksum. -/
def singleSentence : List Nat := strBytes "!AIVDM,1,1,,A,0,0*16"

/-- The frame parsed from `singleSentence`. -/
def singleFrame : NMEAMessage := (NMEAMessage.parse singleSentence).okFrame

/-- Fragment 1 of 2 of a multipart message, with a correct checksum. -/
def fragOne : List Nat := strBytes "!AIVDM,2,1,3,A,00,0*16"

/-- Fragment 2 of 2 of a multipart message, with a correct checksum. -/
def fragTwo : List Nat := strBytes "!AIVDM,2,2,3,A,11,0*15"

/-- The frame parsed from `fragOne`. -/
def frameOne : NMEAMessage := (NMEAMessage.parse fragOne).okFrame

/-- The frame parsed from `fragTwo`. -/
def frameTwo : NMEAMessage := (NMEAMessage.parse fragTwo).okFrame

/-- An accepted sentence whose 7th field is `*5C`: the pad-count prefix is
empty, and `int(checksum[2:], 16)` reads only the digit `C`. -/
def padZeroSentence : List Nat := strBytes "!AIVDM,1,1,,A,A[,*5C"

/-- The 7 fields of a sentence whose head field `!A*VDM` contains a `*`, so
the checksum region ends inside the head; parameterised by the payload. -/
def starFields (payload : List Nat) : List (List Nat) :=
  [strBytes "!A*VDM", strBytes "1", strBytes "1", [], strBytes "A", payload,
   strBytes "0*41"]

/-! ### Claims -/

/-- C4 counterexample: on `b"!*00"` no byte lies strictly between the leading
sentinel and the first `*`, and `compute_checksum` raises `TypeError`
(`reduce` of an empty sequence) instead of returning an XOR-fold. -/
theorem C4_counterexample :
    (((strBytes "!*00").drop 1).takeWhile (fun b => b ≠ 42) = []) ∧
    compute_checksum (strBytes "!*00") = none := by
  constructor
  · decide
  · decide

/-- C4 (amended): for every byte sequence with at least one byte strictly
between the leading sentinel byte and the first `*` delimiter,
`compute_checksum` returns the XOR-fold of exactly those bytes; with no such
byte it raises instead of returning. -/
theorem C4_xor_fold (s : Nat) (pre suf : List Nat)
    (hstar : 42 ∉ pre) (hne : pre ≠ []) :
    compute_checksum (s :: pre ++ 42 :: suf) = some (pre.foldl Nat.xor 0) := by
  have hdrop : (s :: pre ++ 42 :: suf).drop 1 = pre ++ 42 :: suf := by simp
  have htake : (pre ++ 42 :: suf).takeWhile (fun b => b ≠ 42) = pre := by
    rw [takeWhile_append_all _ pre (42 :: suf)
      (fun b hb => by simp; exact fun e => hstar (e ▸ hb))]
    simp [List.takeWhile_cons]
  rw [compute_checksum, hdrop, htake, reduceXor_eq_foldl pre hne]

/-- C4 witness: the XOR-fold of the two bytes between `!` and `*` in
`b"!AB*12"` is `65 xor 66 = 3`. -/
theorem C4_xor_fold_witness :
    compute_checksum (33 :: [65, 66] ++ 42 :: [49, 50]) =
      some ([65, 66].foldl Nat.xor 0) :=
  C4_xor_fold 33 [65, 66] [49, 50] (by decide) (by decide)

/-- C7 counterexample: the non-empty input `b",x"` has first byte `,` (not the
sentinel `!`), yet parsing raises `IndexError` instead of returning the
ignored result. -/
theorem C7_counterexample :
    (44 : Nat) ≠ 33 ∧ NMEAMessage.parse [44, 120] = .error .indexError := by
  constructor
  · decide
  · decide

/-- C7 (amended): for every non-empty input whose first byte is neither the
sentinel `!` nor a comma, parsing returns the explicit ignored result without
any error; an input starting with a comma instead raises `IndexError`. -/
theorem C7_ignored (b : Nat) (rest : List Nat) (hb33 : b ≠ 33) (hb44 : b ≠ 44) :
    NMEAMessage.parse (b :: rest) = .ignored (b :: rest) := by
  have hh := splitByte_headD_head 44 b rest hb44
  rw [List.headD_eq_head?] at hh
  simp [NMEAMessage.parse, hh, hb33]

/-- C7 witness: a `$`-led sentence is ignored, not rejected. -/
theorem C7_ignored_witness :
    NMEAMessage.parse (36 :: strBytes "GPGGA,x") =
      .ignored (36 :: strBytes "GPGGA,x") :=
  C7_ignored 36 (strBytes "GPGGA,x") (by decide) (by decide)

/-- C8: an input whose first byte is the sentinel `!` but which does not split
on commas into exactly 7 fields fails with the framing `ValueError`. -/
theorem C8_framing (raw : List Nat) (h33 : raw.head? = some 33)
    (h7 : (splitByte 44 raw).length ≠ 7) :
    NMEAMessage.parse raw = .error .framing := by
  match raw with
  | [] => simp at h33
  | b :: rest =>
    have hb : b = 33 := by simpa using h33
    subst hb
    have hh := splitByte_headD_head 44 33 rest (by decide)
    rw [List.headD_eq_head?] at hh
    simp [NMEAMessage.parse, hh, h7]

/-- C8 witness: a 3-field sentence starting with `!` fails with the framing
error. -/
theorem C8_framing_witness :
    NMEAMessage.parse (strBytes "!AIVDM,1,1") = .error .framing :=
  C8_framing (strBytes "!AIVDM,1,1") (by decide) (by decide)

/-- C10: frame construction is not total — the empty input and every input
starting with a comma (empty first comma-field) raise an uncaught
`IndexError` at the `values[0][0]` sentinel test, rather than returning the
ignored result or a documented `ValueError`. -/
theorem C10_index_error :
    NMEAMessage.parse [] = .error .indexError ∧
    ∀ rest : List Nat, NMEAMessage.parse (44 :: rest) = .error .indexError := by
  constructor
  · rfl
  · intro rest
    simp [NMEAMessage.parse, splitByte]

/-- C10 witness: the comma-led input `b",A"` raises `IndexError`. -/
theorem C10_index_error_witness :
    NMEAMessage.parse [44, 65] = .error .indexError :=
  C10_index_error.2 [65]

/-- C9: field lookup on a decoded message returns the mapped value when the
name is present (keys being distinct as in a Python dict), and the explicit
absent value `none` when the name is missing or no content exists; being a
total function, it never raises. -/
theorem C9_getitem (α : Type) (m : AISMessage α) (k : String) :
    (m.content = none → m.getItem k = none) ∧
    (∀ c v, m.content = some c → (c.map Prod.fst).Nodup → (k, v) ∈ c →
      m.getItem k = some v) ∧
    (∀ c, m.content = some c → k ∉ c.map Prod.fst → m.getItem k = none) := by
  refine ⟨fun h => ?_, fun c v hc hnd hmem => ?_, fun c hc habs => ?_⟩
  · simp [AISMessage.getItem, h]
  · simp only [AISMessage.getItem, hc]
    exact dictGet_of_mem c k v hnd hmem
  · simp only [AISMessage.getItem, hc]
    exact dictGet_of_not_mem c k habs

/-- C9 witness: lookup of a present key, a missing key, and lookup with no
content, on concrete dictionaries. -/
theorem C9_getitem_witness :
    (AISMessage.getItem ⟨default, some [("type", 1)]⟩ "type" = some 1) ∧
    (AISMessage.getItem ⟨default, some [("type", 1)]⟩ "mmsi" = none) ∧
    (AISMessage.getItem (⟨default, none⟩ : AISMessage Nat) "type" = none) :=
  ⟨(C9_getitem Nat ⟨default, some [("type", 1)]⟩ "type").2.1 [("type", 1)] 1 rfl
      (by simp) (by simp),
   (C9_getitem Nat ⟨default, some [("type", 1)]⟩ "mmsi").2.2 [("type", 1)] rfl
      (by simp),
   (C9_getitem Nat ⟨default, none⟩ "type").1 rfl⟩

/-- C6: for every non-empty sequence of frames, the assembled message's raw
bytes, payload bytes and bit stream are the concatenations, in the order
given, of the corresponding fields of the inputs, and its framing metadata
(talker, message type, fragment count and index, sequence id, channel) is
that of the first fragment. -/
theorem C6_assemble_concat (m0 : NMEAMessage) (rest : List NMEAMessage) :
    ∃ res : NMEAMessage,
      (assemble_from_iterable (m0 :: rest)).map Prod.fst = some res ∧
      res.raw = ((m0 :: rest).map (fun m => m.raw)).flatten ∧
      res.data = ((m0 :: rest).map (fun m => m.data)).flatten ∧
      res.bit_array = ((m0 :: rest).map (fun m => m.bit_array)).flatten ∧
      res.talker = m0.talker ∧ res.msg_type = m0.msg_type ∧
      res.count = m0.count ∧ res.index = m0.index ∧
      res.seq_id = m0.seq_id ∧ res.channel = m0.channel :=
  ⟨_, rfl, rfl, rfl, rfl, rfl, rfl, rfl, rfl, rfl, rfl⟩

/-- C6 witness: assembling the two concrete fragments concatenates raw bytes,
payloads and bit streams and keeps the first fragment's metadata. -/
theorem C6_assemble_concat_witness :
    ∃ res : NMEAMessage,
      (assemble_from_iterable [frameOne, frameTwo]).map Prod.fst = some res ∧
      res.raw = ([frameOne, frameTwo].map (fun m => m.raw)).flatten ∧
      res.data = ([frameOne, frameTwo].map (fun m => m.data)).flatten ∧
      res.bit_array = ([frameOne, frameTwo].map (fun m => m.bit_array)).flatten ∧
      res.talker = frameOne.talker ∧ res.msg_type = frameOne.msg_type ∧
      res.count = frameOne.count ∧ res.index = frameOne.index ∧
      res.seq_id = frameOne.seq_id ∧ res.channel = frameOne.channel :=
  C6_assemble_concat frameOne [frameTwo]

/-- C1 counterexample: assembling two concretely parsed fragments leaves the
first input fragment with a `raw` field different from its value before the
call — the inputs are not left unmodified. -/
theorem C1_counterexample :
    (NMEAMessage.parse fragOne).isOk = true ∧
    (NMEAMessage.parse fragTwo).isOk = true ∧
    ((assembledInputs [frameOne, frameTwo]).headD default).raw ≠ frameOne.raw := by
  refine ⟨by decide, by decide, by decide⟩

/-- C1 (amended): `assemble_from_iterable` mutates the first input fragment
in place — its raw, data and bit-array fields become the concatenations over
all fragments, so whenever the later fragments contribute any raw bytes the
first input no longer equals its pre-call value; fragments after the first
are left unmodified, and the returned message is the mutated first input
itself, not a freshly constructed one. -/
theorem C1_assemble_mutates (m0 : NMEAMessage) (rest : List NMEAMessage)
    (hne : (rest.map (fun m => m.raw)).flatten ≠ []) :
    ∃ m' : NMEAMessage,
      assemble_from_iterable (m0 :: rest) = some (m', m' :: rest) ∧
      m'.raw = m0.raw ++ (rest.map (fun m => m.raw)).flatten ∧
      m'.data = m0.data ++ (rest.map (fun m => m.data)).flatten ∧
      m'.bit_array = m0.bit_array ++ (rest.map (fun m => m.bit_array)).flatten ∧
      m' ≠ m0 := by
  refine ⟨_, rfl, by simp, by simp, by simp, fun he => hne ?_⟩
  have hlen := congrArg (fun m => m.raw.length) he
  simp only [List.map_cons, List.flatten_cons, List.length_append] at hlen
  have hz : ((rest.map (fun m => m.raw)).flatten).length = 0 := by omega
  exact List.eq_nil_of_length_eq_zero hz

/-- C1 witness: on the two concrete fragments the mutation is visible. -/
theorem C1_assemble_mutates_witness :
    ∃ m' : NMEAMessage,
      assemble_from_iterable [frameOne, frameTwo] = some (m', [m', frameTwo]) ∧
      m'.raw = frameOne.raw ++ ([frameTwo].map (fun m => m.raw)).flatten ∧
      m'.data = frameOne.data ++ ([frameTwo].map (fun m => m.data)).flatten ∧
      m'.bit_array =
        frameOne.bit_array ++ ([frameTwo].map (fun m => m.bit_array)).flatten ∧
      m' ≠ frameOne :=
  C1_assemble_mutates frameOne [frameTwo] (by decide)

/-- C2 counterexample: the sentence `!AIVDM,1,1,,A,A[,*5C` — whose 7th field
`*5C` has an empty pad-count prefix — is accepted, yet the stored checksum is
12 (`int(b"C", 16)`), not 92, the value of the 2 hex digits `5C` that follow
the `*`. -/
theorem C2_counterexample :
    (NMEAMessage.parse padZeroSentence).isOk = true ∧
    (splitByte 44 padZeroSentence).getD 6 [] = strBytes "*5C" ∧
    parseNatHex (strBytes "5C") = some 92 ∧
    (NMEAMessage.parse padZeroSentence).checksumOf = some 12 ∧
    (12 : Nat) ≠ 92 := by
  refine ⟨by decide, by decide, by decide, by decide, by decide⟩

/-- C2 (amended): the declared checksum is parsed as `int(checksum[2:], 16)`,
i.e. by unconditionally dropping the first 2 bytes of the 7th field.  When the
pad-count prefix is exactly one character followed by `*`, this equals the
value of the 2 hex digits after the `*`; for other pad-count prefix lengths
the parse either fails or reads different digits. -/
theorem C2_checksum_digits (raw : List Nat) (m : NMEAMessage)
    (p h1 h2 a b : Nat)
    (hok : NMEAMessage.parse raw = .ok m)
    (hf7 : (splitByte 44 raw).getD 6 [] = [p, 42, h1, h2])
    (ha : hexVal h1 = some a) (hb : hexVal h2 = some b) :
    m.checksum = 16 * a + b := by
  obtain ⟨-, -, -, -, -, -, -, -, -, -, hhex, -, -⟩ := parse_ok_spec raw m hok
  rw [hf7] at hhex
  simp [parseNatHex, ha, hb] at hhex
  omega

/-- C2 witness: on `!AIVDM,1,1,,A,0,0*16` (pad count `0`, one character) the
stored checksum equals the value 0x16 of the digits after `*`. -/
theorem C2_checksum_digits_witness : singleFrame.checksum = 16 * 1 + 6 :=
  C2_checksum_digits singleSentence singleFrame 48 49 54 1 6
    (by decide) (by decide) (by decide) (by decide)

/-- C5: a fully constructed frame always carries a declared checksum equal to
the checksum computed over its raw line; and when the earlier field parses
succeed but the declared and computed checksums differ, construction fails
with the "Invalid Checksum" error, so no frame with a mismatch is ever
produced. -/
theorem C5_checksum_enforced :
    (∀ raw m, NMEAMessage.parse raw = .ok m →
      compute_checksum raw = some m.checksum) ∧
    (∀ raw t mt c i d comp,
      raw.head? = some 33 →
      (splitByte 44 raw).length = 7 →
      decodeAscii ((((splitByte 44 raw).getD 0 []).drop 1).take 2) = some t →
      decodeAscii (((splitByte 44 raw).getD 0 []).drop 3) = some mt →
      parseNatDigits ((splitByte 44 raw).getD 1 []) = some c →
      parseNatDigits ((splitByte 44 raw).getD 2 []) = some i →
      parseNatHex (((splitByte 44 raw).getD 6 []).drop 2) = some d →
      compute_checksum raw = some comp →
      d ≠ comp →
      NMEAMessage.parse raw = .error .checksumMismatch) := by
  constructor
  · intro raw m hok
    obtain ⟨-, -, -, -, -, -, -, -, -, -, -, hcomp, -⟩ := parse_ok_spec raw m hok
    exact hcomp
  · intro raw t mt c i d comp h33 hlen h1 h2 h3 h4 h5 h6 h7
    cases raw with
    | nil => simp at h33
    | cons b rest =>
      have hb : b = 33 := by simpa using h33
      subst hb
      have hh := splitByte_headD_head 44 33 rest (by decide)
      rw [parse_eq_parseFields _ hh hlen]
      exact parseFields_mismatch _ _ t mt c i d comp h1 h2 h3 h4 h5 h6 h7

/-- C5 witness: the valid sentence satisfies the invariant, and the same
sentence with declared checksum `17` (hex) instead of `16` fails with the
checksum error. -/
theorem C5_checksum_enforced_witness :
    compute_checksum singleSentence = some singleFrame.checksum ∧
    NMEAMessage.parse (strBytes "!AIVDM,1,1,,A,0,0*17") =
      .error .checksumMismatch :=
  ⟨C5_checksum_enforced.1 singleSentence singleFrame (by decide),
   C5_checksum_enforced.2 (strBytes "!AIVDM,1,1,,A,0,0*17")
     [65, 73] [86, 68, 77] 1 1 23 22
     (by decide) (by decide) (by decide) (by decide) (by decide) (by decide)
     (by decide) (by decide) (by decide)⟩

/-- Checksum region of a 7-field sentence whose head starts with the sentinel:
when the first 5 fields and the payload contain no `*`, the XOR region runs
from after the sentinel through the payload and into the 7th field up to its
first `*`, and the computed checksum is the XOR-fold of that region, split
here into prefix, payload and tail folds. -/
theorem compute_join7 (hd cnt idx seq chan pay ck7 : List Nat)
    (hhd : 42 ∉ hd) (h1 : 42 ∉ cnt) (h2 : 42 ∉ idx) (h3 : 42 ∉ seq)
    (h4 : 42 ∉ chan) (hp : ∀ b ∈ pay, b ≠ 42) :
    compute_checksum (joinComma [33 :: hd, cnt, idx, seq, chan, pay, ck7]) =
      some ((hd ++ 44 :: (cnt ++ 44 :: (idx ++ 44 :: (seq ++ 44 :: (chan ++ [44]))))).foldl Nat.xor 0 ^^^
        (pay.foldl Nat.xor 0 ^^^
          (44 :: ck7.takeWhile (fun b => b ≠ 42)).foldl Nat.xor 0)) := by
  have hdrop : (joinComma [33 :: hd, cnt, idx, seq, chan, pay, ck7]).drop 1 =
      (hd ++ 44 :: (cnt ++ 44 :: (idx ++ 44 :: (seq ++ 44 :: (chan ++ [44]))))) ++
        (pay ++ 44 :: ck7) := by
    simp [joinComma]
  have hne4442 : ¬((42 : Nat) = 44) := by decide
  have hpre42 : ∀ b ∈ hd ++ 44 :: (cnt ++ 44 :: (idx ++ 44 :: (seq ++ 44 :: (chan ++ [44])))),
      (fun x => decide (x ≠ 42)) b = true := by
    intro b hbm
    simp only [List.mem_append, List.mem_cons, List.mem_singleton] at hbm
    simp only [decide_eq_true_eq]
    intro heq
    subst heq
    tauto
  have hpay42 : ∀ b ∈ pay, (fun x => decide (x ≠ 42)) b = true := by
    intro b hbm
    simp only [decide_eq_true_eq]
    exact hp b hbm
  rw [compute_checksum, hdrop, takeWhile_append_all _ _ _ hpre42,
    takeWhile_append_all _ _ _ hpay42, List.takeWhile_cons]
  simp only [show decide ((44 : Nat) ≠ 42) = true from by decide, if_true]
  rw [reduceXor_eq_foldl _ (by simp)]
  simp only [foldl_xor_append, Nat.xor_assoc]

/-- C3 counterexample: the sentence built from the fields `!A*VDM`, `1`, `1`,
empty, `A`, payload `00`, `0*41` is accepted (the `*` inside the head ends
the checksum region early), and replacing payload byte 0 (`0`, 0x30) by the
different byte `1` (0x31) still yields an accepted sentence: the tampering is
not rejected at all, let alone by a checksum mismatch. -/
theorem C3_counterexample :
    (NMEAMessage.parse (joinComma (starFields (strBytes "00")))).isOk = true ∧
    (strBytes "00").set 0 49 = strBytes "10" ∧
    (49 : Nat) ≠ 48 ∧
    (NMEAMessage.parse (joinComma (starFields (strBytes "10")))).isOk = true := by
  refine ⟨by decide, by decide, by decide, by decide⟩

/-- C3 (amended): for an accepted sentence whose `*` delimiter first occurs in
the 7th field (no `*` in the head, fragment, sequence or channel fields),
replacing any single payload byte by a different byte that is neither `,` nor
`*` yields a sentence the parser rejects with the checksum-mismatch error,
because the computed checksum changes while the declared one does not. -/
theorem C3_tamper_rejected
    (hd cnt idx seq chan payload ck7 : List Nat) (m : NMEAMessage) (i b' : Nat)
    (hok : NMEAMessage.parse
      (joinComma [33 :: hd, cnt, idx, seq, chan, payload, ck7]) = .ok m)
    (hc0 : 44 ∉ 33 :: hd) (hc1 : 44 ∉ cnt) (hc2 : 44 ∉ idx) (hc3 : 44 ∉ seq)
    (hc4 : 44 ∉ chan) (hc5 : 44 ∉ payload) (hc6 : 44 ∉ ck7)
    (hs0 : 42 ∉ 33 :: hd) (hs1 : 42 ∉ cnt) (hs2 : 42 ∉ idx) (hs3 : 42 ∉ seq)
    (hs4 : 42 ∉ chan)
    (hi : i < payload.length) (hb : b' ≠ payload.getD i 0)
    (hb44 : b' ≠ 44) (hb42 : b' ≠ 42) :
    NMEAMessage.parse
      (joinComma [33 :: hd, cnt, idx, seq, chan, payload.set i b', ck7]) =
      .error .checksumMismatch := by
  have hsplit : splitByte 44 (joinComma [33 :: hd, cnt, idx, seq, chan, payload, ck7]) =
      [33 :: hd, cnt, idx, seq, chan, payload, ck7] := by
    refine splitByte_joinComma _ (by simp) ?_
    intro f hf
    simp only [List.mem_cons, List.mem_singleton] at hf
    rcases hf with rfl | rfl | rfl | rfl | rfl | rfl | rfl | hf
    · exact hc0
    · exact hc1
    · exact hc2
    · exact hc3
    · exact hc4
    · exact hc5
    · exact hc6
    · simp at hf
  obtain ⟨-, -, -, htalk, hmsg, hcnt, hidx, -, -, hdata, hhex, hcomp, hbits⟩ :=
    parse_ok_spec _ m hok
  rw [hsplit] at htalk hmsg hcnt hidx hdata hhex hbits
  have e0 : ([33 :: hd, cnt, idx, seq, chan, payload, ck7] : List (List Nat)).getD 0 [] = 33 :: hd := rfl
  have e1 : ([33 :: hd, cnt, idx, seq, chan, payload, ck7] : List (List Nat)).getD 1 [] = cnt := rfl
  have e2 : ([33 :: hd, cnt, idx, seq, chan, payload, ck7] : List (List Nat)).getD 2 [] = idx := rfl
  have e5 : ([33 :: hd, cnt, idx, seq, chan, payload, ck7] : List (List Nat)).getD 5 [] = payload := rfl
  have e6 : ([33 :: hd, cnt, idx, seq, chan, payload, ck7] : List (List Nat)).getD 6 [] = ck7 := rfl
  rw [e0] at htalk hmsg
  rw [e1] at hcnt
  rw [e2] at hidx
  rw [e5] at hbits
  rw [e6] at hhex
  have hpay42 : ∀ b ∈ payload, b ≠ 42 := by
    intro b hbm heq
    have hbound := decode_into_bit_array_mem payload m.bit_array hbits b hbm
    omega
  have hpay42' : ∀ b ∈ payload.set i b', b ≠ 42 := by
    intro b hbm
    rcases List.mem_or_eq_of_mem_set hbm with hmem | rfl
    · exact hpay42 b hmem
    · exact hb42
  have hhd42 : 42 ∉ hd := fun h => hs0 (List.mem_cons_of_mem 33 h)
  have hcompOrig := compute_join7 hd cnt idx seq chan payload ck7
    hhd42 hs1 hs2 hs3 hs4 hpay42
  have hcompNew := compute_join7 hd cnt idx seq chan (payload.set i b') ck7
    hhd42 hs1 hs2 hs3 hs4 hpay42'
  rw [hcomp] at hcompOrig
  have hchk : m.checksum =
      (hd ++ 44 :: (cnt ++ 44 :: (idx ++ 44 :: (seq ++ 44 :: (chan ++ [44]))))).foldl Nat.xor 0 ^^^
        (payload.foldl Nat.xor 0 ^^^
          (44 :: ck7.takeWhile (fun b => b ≠ 42)).foldl Nat.xor 0) :=
    Option.some.inj hcompOrig
  have hneq : m.checksum ≠
      (hd ++ 44 :: (cnt ++ 44 :: (idx ++ 44 :: (seq ++ 44 :: (chan ++ [44]))))).foldl Nat.xor 0 ^^^
        ((payload.set i b').foldl Nat.xor 0 ^^^
          (44 :: ck7.takeWhile (fun b => b ≠ 42)).foldl Nat.xor 0) := by
    rw [hchk, foldl_xor_set payload i b' hi]
    intro heq
    have h1' := Nat.xor_right_inj.mp heq
    have h2' := Nat.xor_left_inj.mp h1'
    rw [Nat.xor_assoc] at h2'
    have h3' : payload.foldl Nat.xor 0 ^^^ 0 =
        payload.foldl Nat.xor 0 ^^^ (payload.getD i 0 ^^^ b') := by
      rw [Nat.xor_zero]
      exact h2'
    have h4' := Nat.xor_right_inj.mp h3'
    exact hb (Nat.xor_eq_zero.mp h4'.symm).symm
  have hsplit' : splitByte 44 (joinComma [33 :: hd, cnt, idx, seq, chan, payload.set i b', ck7]) =
      [33 :: hd, cnt, idx, seq, chan, payload.set i b', ck7] := by
    refine splitByte_joinComma _ (by simp) ?_
    intro f hf
    simp only [List.mem_cons, List.mem_singleton] at hf
    rcases hf with rfl | rfl | rfl | rfl | rfl | rfl | rfl | hf
    · exact hc0
    · exact hc1
    · exact hc2
    · exact hc3
    · exact hc4
    · intro hmem
      rcases List.mem_or_eq_of_mem_set hmem with hm | he
      · exact hc5 hm
      · exact hb44 he.symm
    · exact hc6
    · simp at hf
  have hhead' : ((splitByte 44 (joinComma [33 :: hd, cnt, idx, seq, chan, payload.set i b', ck7])).headD []).head? = some 33 := by
    rw [hsplit']
    rfl
  have hlen' : (splitByte 44 (joinComma [33 :: hd, cnt, idx, seq, chan, payload.set i b', ck7])).length = 7 := by
    rw [hsplit']
    rfl
  rw [parse_eq_parseFields _ hhead' hlen']
  refine parseFields_mismatch _ _ m.talker m.msg_type m.count m.index m.checksum _
    ?_ ?_ ?_ ?_ ?_ hcompNew hneq
  · rw [hsplit']
    exact htalk
  · rw [hsplit']
    exact hmsg
  · rw [hsplit']
    exact hcnt
  · rw [hsplit']
    exact hidx
  · rw [hsplit']
    exact hhex

/-- C3 witness: replacing the payload byte `0` of the valid sentence
`!AIVDM,1,1,,A,0,0*16` by `1` is rejected with the checksum-mismatch error. -/
theorem C3_tamper_rejected_witness :
    NMEAMessage.parse
      (joinComma [33 :: strBytes "AIVDM", [49], [49], [], [65],
        ([48] : List Nat).set 0 49, strBytes "0*16"]) =
      .error .checksumMismatch :=
  C3_tamper_rejected (strBytes "AIVDM") [49] [49] [] [65] [48] (strBytes "0*16")
    singleFrame 0 49 (by decide) (by decide) (by decide) (by decide) (by decide)
    (by decide) (by decide) (by decide) (by decide) (by decide) (by decide)
    (by decide) (by decide) (by decide) (by decide) (by decide) (by decide)
